import Mathlib

/-!
Machine capability resolution (`internal/core/machine.go`)

A shallow embedding of `Machine.Guest`, `Machine.Box`, `Machine.SetID`,
`Machine.SaveMachine` and `Machine.SyncedFolders`.

Conventions of the embedding:

* A Go `error` produced by a collaborator is a message of type `Err`.
* The collaborators the machine reaches through `m.project`, `m.project.basis`
  and the embedded `*Target` are gathered in `Env`; every operation takes the
  `Env` that is current when it is called.
* Every operation returns its Go results, the machine after the call and the
  collaborator calls it made, in call order.
* `range guests` iterates a Go map; the list handed to the loop is the order in
  which that iteration visits the entries.
* Logger calls have no effect on results and are left out.
* The type assertions `g.Value.(core.Guest)`, `b.(*Box)` and
  `plg.Value.(core.SyncedFolder)` are taken to succeed: the collaborators hand
  out values of the asserted type, and `boxes.Find` answers a nil interface
  when it finds nothing.
* `boxes, _ := m.project.Boxes()` and `p, _ := m.Project()` drop their error;
  both are taken to hand out their value.
* `Machine.MachineState` and `Machine.SetMachineState` consist of calls to
  `mapstructure.Decode` on two struct types declared outside this package and
  are not embedded.
-/

namespace Core

/-- A Go `error` value returned by a collaborator. -/
abbrev Err := String

/-- A guest plugin (`core.Guest`) as seen by `Machine.Guest`: `id` tells plugin
objects apart, `detect` is what `guest.Detect(m.toTarget())` returns, `seeder`
is `none` when the plugin does not implement `core.Seeder` and otherwise what
`Seed(m, p, m.Target)` returns. -/
structure Guest where
  id : Nat
  detect : Except Err Bool
  seeder : Option (Except Err Unit)

/-- Serialized box record (`vagrant_server.Box`). -/
structure BoxProto where
  Name : String
  Provider : String
  Version : String

/-- Modelled from the spec: the `Box` type of `internal/core` is not part of the
source slice; a box is a resolved image descriptor carrying its serialized form. -/
structure Box where
  box : BoxProto

/-- Modelled from the spec: `Box.ToProto` is not part of the source slice; it
hands out the serialized form the box carries. -/
def Box.ToProto (b : Box) : BoxProto := b.box

/-- The record `vagrant_server.Target_Machine`; `State` is kept as an
uninterpreted payload. -/
structure Target_Machine where
  Id : String
  Uid : String
  State : Option String
  Box : Option BoxProto

/-- A declared synced folder of `ConfigVm.SyncedFolders`. -/
structure SyncedFolderSpec where
  Source : String
  Destination : String
  Type_ : String

/-- The part of `m.target.Configuration.ConfigVm` that the code reads. -/
structure ConfigVm where
  Box : String
  SyncedFolders : List SyncedFolderSpec

/-- The serialized form `ptypes.MarshalAny` produces. -/
structure Any where
  TypeUrl : String
  Value : List Nat

/-- The target record `m.target` (`vagrant_server.Target`): its configuration
and the serialized machine record. -/
structure TargetRecord where
  ConfigVm : ConfigVm
  Record : Option Any

/-- A synced folder plugin (`core.SyncedFolder`). -/
structure SyncedFolder where
  id : Nat

/-- The Go struct `Machine`. -/
structure Machine where
  target : TargetRecord
  box : Option Box
  machine : Target_Machine
  guest : Option Guest

/-- Collaborators of the machine:
`typeComponents` is `m.project.basis.typeComponents(m.ctx, component.GuestType)`,
with the entries in iteration order; `countParents` is
`m.project.basis.countParents`; `Find` is `boxes.Find(name, version)`, with
`none` for a nil box; `addBox` is `addBox(name, provider, m.project.basis)`;
`component` is `m.project.basis.component(m.ctx, component.SyncedFolderType, name)`;
`MarshalAny` is `ptypes.MarshalAny`; `Save` is `Target.Save` (the durable
store) applied to `m.target`, answering `none` for a nil error. -/
structure Env where
  typeComponents : Except Err (List (String × Guest))
  countParents : Guest → Except Err Int
  Find : String → String → Except Err (Option Box)
  addBox : String → String → Except Err Box
  component : String → Except Err SyncedFolder
  MarshalAny : Target_Machine → Except Err Any
  Save : TargetRecord → Option Err

/-- A collaborator call, as recorded in call order. -/
inductive Call where
  | typeComponents
  | detect (plugin : String)
  | countParents (plugin : String)
  | seed (plugin : String)
  | find (name version : String)
  | addBox (name provider : String)
  | marshalAny (machine : Target_Machine)
  | save (target : TargetRecord)
  | component (name : String)

/-- The error `Machine.Guest` returns, one constructor per `return` that
carries an error. -/
inductive GuestError where
  /-- The call of `typeComponents` failed (line 72). -/
  | typeComponents (e : Err)
  /-- The call of `countParents` failed on the candidate just made the result (line 95). -/
  | countParents (e : Err)
  /-- No candidate was detected: "failed to detect guest plugin for current platform" (line 122). -/
  | notDetected
  /-- The call of `Seed` failed (line 131). -/
  | seed (e : Err)
  /-- The result is no seeder: "guest plugin does not support seeder interface" (line 134). -/
  | noSeeder

/-- The local variables `result`, `result_name`, `numParents` of `Machine.Guest`. -/
structure Best where
  result : Option Guest
  result_name : String
  numParents : Int

/-- The values of the locals before the loop (Go zero values). -/
def Best.init : Best := ⟨none, "", 0⟩

/-- How one iteration of the detection loop ends. -/
inductive Step where
  | next (s : Best)
  | ret (e : Err)

/-- One iteration of `for name, g := range guests` (lines 79-119). -/
def guestStep (env : Env) (s : Best) (entry : String × Guest) : List Call × Step :=
  let name := entry.1
  let guest := entry.2
  match guest.detect with
  | .error _ => ([.detect name], .next s)
  | .ok detected =>
    match s.result with
    | none =>
      if detected then
        match env.countParents guest with
        | .error e => ([.detect name, .countParents name], .ret e)
        | .ok n => ([.detect name, .countParents name], .next ⟨some guest, name, n⟩)
      else ([.detect name], .next s)
    | some _ =>
      if detected then
        match env.countParents guest with
        | .error _ => ([.detect name, .countParents name], .next s)
        | .ok gp =>
          if gp > s.numParents then
            ([.detect name, .countParents name], .next ⟨some guest, name, gp⟩)
          else ([.detect name, .countParents name], .next s)
      else ([.detect name], .next s)

/-- The detection loop of `Machine.Guest`: the calls made, and either the
locals after the last iteration or the error of the early `return`. -/
def guestLoop (env : Env) : List (String × Guest) → Best → List Call × Except Err Best
  | [], s => ([], .ok s)
  | entry :: rest, s =>
    match guestStep env s entry with
    | (calls, .ret e) => (calls, .error e)
    | (calls, .next s') =>
      let r := guestLoop env rest s'
      (calls ++ r.1, r.2)

/-- What `Machine.Guest` hands back: its Go results, the machine afterwards
and the collaborator calls it made. -/
structure GuestReturn where
  value : Except GuestError Guest
  machine : Machine
  calls : List Call

/-- The part of `Machine.Guest` after the loop (lines 121-139). -/
def Machine.seedGuest (m : Machine) (calls : List Call) (s : Best) : GuestReturn :=
  match s.result with
  | none => ⟨.error .notDetected, m, calls⟩
  | some result =>
    match result.seeder with
    | some (.error e) => ⟨.error (.seed e), m, calls ++ [.seed s.result_name]⟩
    | some (.ok _) => ⟨.ok result, { m with guest := some result }, calls ++ [.seed s.result_name]⟩
    | none => ⟨.error .noSeeder, m, calls⟩

/-- The method `Machine.Guest`. -/
def Machine.Guest (m : Machine) (env : Env) : GuestReturn :=
  match m.guest with
  | some g => ⟨.ok g, m, []⟩
  | none =>
    match env.typeComponents with
    | .error e => ⟨.error (.typeComponents e), m, [.typeComponents]⟩
    | .ok guests =>
      match guestLoop env guests Best.init with
      | (calls, .error e) => ⟨.error (.countParents e), m, .typeComponents :: calls⟩
      | (calls, .ok s) => m.seedGuest (.typeComponents :: calls) s

/-- What `Machine.Box` hands back. -/
structure BoxReturn where
  value : Except Err Box
  machine : Machine
  calls : List Call

/-- Lines 57-59 of `Machine.Box`: record the box on the machine record, call
`m.Save()` (whose returned error the code drops), cache the box. -/
def Machine.storeBox (m : Machine) (env : Env) (calls : List Call) (b : Box) : BoxReturn :=
  let m1 : Machine := { m with machine := { m.machine with Box := some b.ToProto } }
  let _dropped := env.Save m1.target
  ⟨.ok b, { m1 with box := some b }, calls ++ [.save m1.target]⟩

/-- The method `Machine.Box`. -/
def Machine.Box (m : Machine) (env : Env) : BoxReturn :=
  match m.box with
  | some bx => ⟨.ok bx, m, []⟩
  | none =>
    let name := m.target.ConfigVm.Box
    match env.Find name "" with
    | .error e => ⟨.error e, m, [.find name ""]⟩
    | .ok (some b) => m.storeBox env [.find name ""] b
    | .ok none =>
      match env.addBox name "virtualbox" with
      | .error e => ⟨.error e, m, [.find name "", .addBox name "virtualbox"]⟩
      | .ok b => m.storeBox env [.find name "", .addBox name "virtualbox"] b

/-- What a method with the single result `err error` hands back; `none` is the
nil error. -/
structure ErrReturn where
  err : Option Err
  machine : Machine
  calls : List Call

/-- The method `Machine.SaveMachine`. On a marshalling error the code executes
`return nil`. -/
def Machine.SaveMachine (m : Machine) (env : Env) : ErrReturn :=
  match env.MarshalAny m.machine with
  | .error _ =>
    ⟨none, { m with target := { m.target with Record := none } }, [.marshalAny m.machine]⟩
  | .ok rec =>
    let m1 : Machine := { m with target := { m.target with Record := some rec } }
    ⟨env.Save m1.target, m1, [.marshalAny m.machine, .save m1.target]⟩

/-- The method `Machine.SetID`. -/
def Machine.SetID (m : Machine) (value : String) (env : Env) : ErrReturn :=
  Machine.SaveMachine { m with machine := { m.machine with Id := value } } env

/-- What `Machine.SyncedFolders` hands back. -/
structure FoldersReturn where
  value : Except Err (List SyncedFolder)
  calls : List Call

/-- The loop of `Machine.SyncedFolders` (lines 186-195); `folders` is the slice
built so far. Line 188 overwrites the type of the spec at hand before the
lookup. -/
def syncedFoldersLoop (env : Env) :
    List SyncedFolderSpec → List SyncedFolder → List Call → FoldersReturn
  | [], folders, calls => ⟨.ok folders, calls⟩
  | folder :: rest, folders, calls =>
    let folder : SyncedFolderSpec := { folder with Type_ := "virtualbox" }
    match env.component folder.Type_ with
    | .error e => ⟨.error e, calls ++ [.component folder.Type_]⟩
    | .ok plg =>
      syncedFoldersLoop env rest (folders ++ [plg]) (calls ++ [.component folder.Type_])

/-- The method `Machine.SyncedFolders`. -/
def Machine.SyncedFolders (m : Machine) (env : Env) : FoldersReturn :=
  syncedFoldersLoop env m.target.ConfigVm.SyncedFolders [] []

/-! ## Vocabulary of the specification -/

/-- The candidate's probe succeeded and reported `detected = true`. -/
def Guest.detected (g : Guest) : Bool :=
  match g.detect with
  | .ok true => true
  | _ => false

/-- The candidate's probe returned an error. -/
def Guest.probeFailed (g : Guest) : Bool :=
  match g.detect with
  | .error _ => true
  | .ok _ => false

/-- All-or-nothing lookup of a list of type names in a registry, in order. -/
def lookupEach (registry : String → Except Err SyncedFolder) :
    List String → Except Err (List SyncedFolder)
  | [] => .ok []
  | t :: ts =>
    match registry t with
    | .error e => .error e
    | .ok h =>
      match lookupEach registry ts with
      | .error e => .error e
      | .ok hs => .ok (h :: hs)

/-- Synced-folder resolution as the specification words it: each spec is
looked up under its own declared type name. -/
def SyncedFolders_spec (m : Machine) (env : Env) : Except Err (List SyncedFolder) :=
  lookupEach env.component (m.target.ConfigVm.SyncedFolders.map (fun f => f.Type_))

/-- The entry `x` of `guests = pre ++ x :: post` is a detected candidate with the
highest score among the detected ones, and the first such in enumeration order:
detected entries before it score strictly less, detected entries after it score
at most as much. -/
def IsFirstHighest (score : Guest → Int) (guests pre : List (String × Guest))
    (x : String × Guest) (post : List (String × Guest)) : Prop :=
  guests = pre ++ x :: post ∧ x.2.detect = .ok true ∧
    (∀ p ∈ pre, p.2.detect = .ok true → score p.2 < score x.2) ∧
    (∀ p ∈ post, p.2.detect = .ok true → score p.2 ≤ score x.2)

/-- The environment `env` with the guest enumeration replaced by `guests`. -/
def Env.withGuests (env : Env) (guests : List (String × Guest)) : Env :=
  { env with typeComponents := .ok guests }

/-! ## Sample data -/

/-- A guest whose probe fails. -/
def guestBroken : Guest := ⟨1, .error "probe failed", some (.ok ())⟩

/-- A detected guest (one parent). -/
def guestLinux : Guest := ⟨2, .ok true, some (.ok ())⟩

/-- A detected guest (three parents). -/
def guestDebian : Guest := ⟨3, .ok true, some (.ok ())⟩

/-- A detected guest (three parents), enumerated after `guestDebian`. -/
def guestUbuntu : Guest := ⟨4, .ok true, some (.ok ())⟩

/-- A guest that does not apply. -/
def guestDarwin : Guest := ⟨5, .ok false, some (.ok ())⟩

/-- A detected guest whose ancestry cannot be counted. -/
def guestOrphan : Guest := ⟨6, .ok true, some (.ok ())⟩

/-- A detected guest without the seeder interface. -/
def guestNoSeeder : Guest := ⟨7, .ok true, none⟩

/-- The ancestry depth of the sample guests, by `id`. -/
def sampleScore (g : Guest) : Int :=
  match g.id with
  | 2 => 1
  | 3 => 3
  | 4 => 3
  | 7 => 1
  | _ => 0

/-- The sample `countParents`: fails on `guestOrphan`. -/
def sampleCountParents (g : Guest) : Except Err Int :=
  match g.id with
  | 6 => .error "no parents"
  | _ => .ok (sampleScore g)

/-- A sample machine record. -/
def sampleRecord : Target_Machine := ⟨"", "uid", none, none⟩

/-- A sample machine with nothing cached and one declared synced folder, of type `nfs`. -/
def sampleMachine : Machine :=
  { target := { ConfigVm := { Box := "hashicorp/bionic64",
                              SyncedFolders := [⟨".", "/vagrant", "nfs"⟩] },
                Record := none },
    box := none, machine := sampleRecord, guest := none }

/-- The box the sample store knows. -/
def sampleBox : Box := ⟨⟨"hashicorp/bionic64", "virtualbox", "1.0"⟩⟩

/-- A sample environment: an `nfs` transport is registered and a `virtualbox`
one too, marshalling and saving succeed, the box is known. -/
def sampleEnv : Env :=
  { typeComponents := .ok [("linux", guestLinux), ("debian", guestDebian),
      ("ubuntu", guestUbuntu)],
    countParents := sampleCountParents,
    Find := fun _ _ => .ok (some sampleBox),
    addBox := fun name provider => .ok ⟨⟨name, provider, "0"⟩⟩,
    component := fun name =>
      if name = "nfs" then .ok ⟨1⟩
      else if name = "virtualbox" then .ok ⟨2⟩
      else .error "unknown synced folder type",
    MarshalAny := fun _ => .ok ⟨"Target_Machine", []⟩,
    Save := fun _ => none }

/-- The store is unavailable: `Target.Save` answers an error. -/
def storeDownEnv : Env := { sampleEnv with Save := fun _ => some "store unavailable" }

/-- The machine record cannot be serialized: `ptypes.MarshalAny` answers an error. -/
def marshalFailsEnv : Env :=
  { sampleEnv with MarshalAny := fun _ => .error "proto: field contains invalid UTF-8" }

/-- The call is a call of the box-acquisition collaborator `addBox`. -/
def Call.isAddBox : Call → Bool
  | .addBox _ _ => true
  | _ => false

/-! ## The detection loop -/

theorem guestLoop_nil (env : Env) (s : Best) : (guestLoop env [] s).2 = .ok s := rfl

theorem guestLoop_cons (env : Env) (x : String × Guest) (rest : List (String × Guest))
    (s : Best) :
    (guestLoop env (x :: rest) s).2 =
      match (guestStep env s x).2 with
      | .ret e => .error e
      | .next s' => (guestLoop env rest s').2 := by
  rcases h : guestStep env s x with ⟨calls, r⟩
  cases r <;> simp [guestLoop, h]

theorem guestLoop_append (env : Env) (pre post : List (String × Guest)) (s : Best) :
    (guestLoop env (pre ++ post) s).2 =
      match (guestLoop env pre s).2 with
      | .error e => .error e
      | .ok s' => (guestLoop env post s').2 := by
  induction pre generalizing s with
  | nil => simp [guestLoop_nil]
  | cons x rest ih =>
    rw [List.cons_append, guestLoop_cons, guestLoop_cons]
    cases (guestStep env s x).2 with
    | ret e => rfl
    | next s' => exact ih s'

theorem guestStep_probe_error (env : Env) (s : Best) (x : String × Guest) (e : Err)
    (h : x.2.detect = .error e) : (guestStep env s x).2 = .next s := by
  simp [guestStep, h]

theorem guestStep_not_detected (env : Env) (s : Best) (x : String × Guest)
    (h : x.2.detect = .ok false) : (guestStep env s x).2 = .next s := by
  cases hr : s.result <;> simp [guestStep, h, hr]

theorem guestStep_first (env : Env) (s : Best) (x : String × Guest)
    (h : x.2.detect = .ok true) (hr : s.result = none) :
    (guestStep env s x).2 =
      match env.countParents x.2 with
      | .error e => .ret e
      | .ok n => .next ⟨some x.2, x.1, n⟩ := by
  cases hc : env.countParents x.2 <;> simp [guestStep, h, hr, hc]

theorem guestStep_later (env : Env) (s : Best) (x : String × Guest) (r : Guest)
    (h : x.2.detect = .ok true) (hr : s.result = some r) :
    (guestStep env s x).2 =
      match env.countParents x.2 with
      | .error _ => .next s
      | .ok gp => if gp > s.numParents then .next ⟨some x.2, x.1, gp⟩ else .next s := by
  cases hc : env.countParents x.2 with
  | error e => simp [guestStep, h, hr, hc]
  | ok gp => by_cases hg : gp > s.numParents <;> simp [guestStep, h, hr, hc, hg]

/-- While every detected candidate scores below `K`, the loop keeps a result
scoring below `K` (or none). -/
theorem guestLoop_below (env : Env) (score : Guest → Int) (K : Int)
    (pre : List (String × Guest)) (s : Best)
    (hprobe : ∀ p ∈ pre, ∃ d, p.2.detect = .ok d)
    (hscore : ∀ p ∈ pre, p.2.detect = .ok true → env.countParents p.2 = .ok (score p.2))
    (hlt : ∀ p ∈ pre, p.2.detect = .ok true → score p.2 < K)
    (hs : s.result = none ∨ s.numParents < K) :
    ∃ s', (guestLoop env pre s).2 = .ok s' ∧ (s'.result = none ∨ s'.numParents < K) := by
  induction pre generalizing s with
  | nil => exact ⟨s, rfl, hs⟩
  | cons x rest ih =>
    have hrest := fun s' hs' => ih s' (fun p hp => hprobe p (List.mem_cons_of_mem _ hp))
      (fun p hp => hscore p (List.mem_cons_of_mem _ hp))
      (fun p hp => hlt p (List.mem_cons_of_mem _ hp)) hs'
    obtain ⟨d, hd⟩ := hprobe x (List.mem_cons_self _ _)
    rw [guestLoop_cons]
    cases d with
    | false =>
      rw [guestStep_not_detected env s x hd]
      exact hrest s hs
    | true =>
      have hx := hscore x (List.mem_cons_self _ _) hd
      have hxK := hlt x (List.mem_cons_self _ _) hd
      cases hr : s.result with
      | none =>
        rw [guestStep_first env s x hd hr, hx]
        exact hrest _ (Or.inr hxK)
      | some r =>
        rw [guestStep_later env s x r hd hr, hx]
        by_cases hg : score x.2 > s.numParents
        · simp only [hg, if_true]
          exact hrest _ (Or.inr hxK)
        · simp only [hg, if_false]
          exact hrest s hs

/-- Once a result is held, candidates that do not score above it leave the
locals untouched. -/
theorem guestLoop_stable (env : Env) (score : Guest → Int)
    (post : List (String × Guest)) (s : Best) (r : Guest) (hr : s.result = some r)
    (hprobe : ∀ p ∈ post, ∃ d, p.2.detect = .ok d)
    (hscore : ∀ p ∈ post, p.2.detect = .ok true → env.countParents p.2 = .ok (score p.2))
    (hle : ∀ p ∈ post, p.2.detect = .ok true → score p.2 ≤ s.numParents) :
    (guestLoop env post s).2 = .ok s := by
  induction post with
  | nil => rfl
  | cons x rest ih =>
    have hrest := ih (fun p hp => hprobe p (List.mem_cons_of_mem _ hp))
      (fun p hp => hscore p (List.mem_cons_of_mem _ hp))
      (fun p hp => hle p (List.mem_cons_of_mem _ hp))
    obtain ⟨d, hd⟩ := hprobe x (List.mem_cons_self _ _)
    rw [guestLoop_cons]
    cases d with
    | false =>
      rw [guestStep_not_detected env s x hd]
      exact hrest
    | true =>
      have hx := hscore x (List.mem_cons_self _ _) hd
      have hxK := hle x (List.mem_cons_self _ _) hd
      rw [guestStep_later env s x r hd hr, hx]
      have hg : ¬ score x.2 > s.numParents := not_lt.mpr hxK
      simp only [hg, if_false]
      exact hrest

/-- The loop ends with the first highest-scoring detected candidate as result. -/
theorem guestLoop_first_highest (env : Env) (score : Guest → Int)
    (guests pre post : List (String × Guest)) (x : String × Guest)
    (hprobe : ∀ p ∈ guests, ∃ d, p.2.detect = .ok d)
    (hscore : ∀ p ∈ guests, p.2.detect = .ok true → env.countParents p.2 = .ok (score p.2))
    (h : IsFirstHighest score guests pre x post) :
    (guestLoop env guests Best.init).2 = .ok ⟨some x.2, x.1, score x.2⟩ := by
  obtain ⟨hsplit, hdet, hpre, hpost⟩ := h
  subst hsplit
  have hxmem : x ∈ pre ++ x :: post := by simp
  obtain ⟨s1, h1, hs1⟩ := guestLoop_below env score (score x.2) pre Best.init
    (fun p hp => hprobe p (List.mem_append_left _ hp))
    (fun p hp => hscore p (List.mem_append_left _ hp)) hpre (Or.inl rfl)
  have hx := hscore x hxmem hdet
  have hstep : (guestStep env s1 x).2 = .next ⟨some x.2, x.1, score x.2⟩ := by
    cases hr : s1.result with
    | none => rw [guestStep_first env s1 x hdet hr, hx]
    | some r =>
      rw [guestStep_later env s1 x r hdet hr, hx]
      have hg : score x.2 > s1.numParents := by
        rcases hs1 with h0 | h0
        · rw [hr] at h0; cases h0
        · exact h0
      simp only [hg, if_true]
  rw [guestLoop_append, h1]
  show (guestLoop env (x :: post) s1).2 = _
  rw [guestLoop_cons, hstep]
  exact guestLoop_stable env score post ⟨some x.2, x.1, score x.2⟩ x.2 rfl
    (fun p hp => hprobe p (List.mem_append_right _ (List.mem_cons_of_mem _ hp)))
    (fun p hp => hscore p (List.mem_append_right _ (List.mem_cons_of_mem _ hp))) hpost

/-- Every enumeration with a detected candidate has a first highest-scoring
detected candidate. -/
theorem exists_first_highest (score : Guest → Int) (guests : List (String × Guest))
    (hdet : ∃ p ∈ guests, p.2.detect = .ok true) :
    ∃ pre x post, IsFirstHighest score guests pre x post := by
  induction guests with
  | nil => obtain ⟨p, hp, _⟩ := hdet; cases hp
  | cons y rest ih =>
    by_cases hrest : ∃ p ∈ rest, p.2.detect = .ok true
    · obtain ⟨pre, x, post, hsplit, hx, hpre, hpost⟩ := ih hrest
      by_cases hy : y.2.detect = .ok true ∧ score x.2 ≤ score y.2
      · refine ⟨[], y, rest, rfl, hy.1, ?_, ?_⟩
        · intro p hp; cases hp
        · intro p hp hpd
          rw [hsplit] at hp
          rcases List.mem_append.mp hp with h1 | h1
          · exact le_trans (le_of_lt (hpre p h1 hpd)) hy.2
          · rcases List.mem_cons.mp h1 with h2 | h2
            · rw [h2]; exact hy.2
            · exact le_trans (hpost p h2 hpd) hy.2
      · refine ⟨y :: pre, x, post, by rw [hsplit]; rfl, hx, ?_, hpost⟩
        intro p hp hpd
        rcases List.mem_cons.mp hp with h1 | h1
        · subst h1
          by_contra hc
          exact hy ⟨hpd, not_lt.mp hc⟩
        · exact hpre p h1 hpd
    · obtain ⟨p, hp, hpd⟩ := hdet
      rcases List.mem_cons.mp hp with h1 | h1
      · subst h1
        refine ⟨[], p, rest, rfl, hpd, ?_, ?_⟩
        · intro q hq; cases hq
        · intro q hq hqd
          exact absurd ⟨q, hq, hqd⟩ hrest
      · exact absurd ⟨p, h1, hpd⟩ hrest

/-! ## `Machine.Guest` in terms of its loop -/

theorem seedGuest_value (m : Machine) (calls : List Call) (s : Best) :
    (m.seedGuest calls s).value = (m.seedGuest [] s).value := by
  unfold Machine.seedGuest
  cases s.result with
  | none => rfl
  | some r =>
    rcases hsd : r.seeder with _ | (_ | _) <;> simp only [hsd]

theorem seedGuest_machine (m : Machine) (calls : List Call) (s : Best) :
    (m.seedGuest calls s).machine = (m.seedGuest [] s).machine := by
  unfold Machine.seedGuest
  cases s.result with
  | none => rfl
  | some r =>
    rcases hsd : r.seeder with _ | (_ | _) <;> simp only [hsd]

theorem Guest_value_uncached (m : Machine) (env : Env) (guests : List (String × Guest))
    (hcache : m.guest = none) (hsrc : env.typeComponents = .ok guests) :
    (m.Guest env).value =
      match (guestLoop env guests Best.init).2 with
      | .error e => .error (.countParents e)
      | .ok s => (m.seedGuest [] s).value := by
  simp only [Machine.Guest, hcache, hsrc]
  rcases h : guestLoop env guests Best.init with ⟨calls, r⟩
  cases r with
  | error e => rfl
  | ok s => exact seedGuest_value m _ s

theorem Guest_machine_uncached (m : Machine) (env : Env) (guests : List (String × Guest))
    (hcache : m.guest = none) (hsrc : env.typeComponents = .ok guests) :
    (m.Guest env).machine =
      match (guestLoop env guests Best.init).2 with
      | .error _ => m
      | .ok s => (m.seedGuest [] s).machine := by
  simp only [Machine.Guest, hcache, hsrc]
  rcases h : guestLoop env guests Best.init with ⟨calls, r⟩
  cases r with
  | error e => rfl
  | ok s => exact seedGuest_machine m _ s

theorem Guest.detected_iff (g : Guest) : g.detected = true ↔ g.detect = .ok true := by
  unfold Guest.detected
  rcases h : g.detect with _ | (_ | _) <;> simp

/-- With a result in hand the loop never returns early and ends with a result. -/
theorem guestLoop_ok_of_some (env : Env) (xs : List (String × Guest)) (s : Best) (r : Guest)
    (hr : s.result = some r) :
    ∃ s' r', (guestLoop env xs s).2 = .ok s' ∧ s'.result = some r' := by
  induction xs generalizing s r with
  | nil => exact ⟨s, r, rfl, hr⟩
  | cons x rest ih =>
    rw [guestLoop_cons]
    rcases hd : x.2.detect with e | (_ | _)
    · rw [guestStep_probe_error env s x e hd]; exact ih s r hr
    · rw [guestStep_not_detected env s x hd]; exact ih s r hr
    · rw [guestStep_later env s x r hd hr]
      cases env.countParents x.2 with
      | error e => exact ih s r hr
      | ok gp =>
        by_cases hg : gp > s.numParents
        · simp only [hg, if_true]; exact ih _ x.2 rfl
        · simp only [hg, if_false]; exact ih s r hr

/-- The loop returns early exactly when `countParents` fails on the first
detected candidate. -/
theorem guestLoop_error_iff (env : Env) (xs : List (String × Guest)) (s : Best) (e : Err)
    (hs : s.result = none) :
    (guestLoop env xs s).2 = .error e ↔
      ∃ p, xs.find? (fun p => p.2.detected) = some p ∧ env.countParents p.2 = .error e := by
  induction xs with
  | nil => simp [guestLoop_nil]
  | cons x rest ih =>
    rw [guestLoop_cons]
    rcases hd : x.2.detect with e0 | (_ | _)
    · have hnd : x.2.detected = false := by simp [Guest.detected, hd]
      rw [guestStep_probe_error env s x e0 hd]
      simpa [List.find?_cons, hnd] using ih
    · have hnd : x.2.detected = false := by simp [Guest.detected, hd]
      rw [guestStep_not_detected env s x hd]
      simpa [List.find?_cons, hnd] using ih
    · have hnd : x.2.detected = true := by simp [Guest.detected, hd]
      rw [guestStep_first env s x hd hs]
      cases hc : env.countParents x.2 with
      | error e1 => simp [List.find?_cons, hnd, hc]
      | ok n =>
        obtain ⟨s', r', h1, _⟩ := guestLoop_ok_of_some env rest ⟨some x.2, x.1, n⟩ x.2 rfl
        simp [List.find?_cons, hnd, hc, h1]

/-- After a detected candidate the loop, if it completes, holds a result. -/
theorem guestLoop_some_of_detected (env : Env) (xs : List (String × Guest)) (s s' : Best)
    (hdet : ∃ p ∈ xs, p.2.detected = true) (h : (guestLoop env xs s).2 = .ok s') :
    ∃ r, s'.result = some r := by
  cases hr : s.result with
  | some r =>
    obtain ⟨t, r', h1, h2⟩ := guestLoop_ok_of_some env xs s r hr
    rw [h1] at h
    cases h
    exact ⟨r', h2⟩
  | none =>
    induction xs with
    | nil => obtain ⟨p, hp, _⟩ := hdet; cases hp
    | cons x rest ih =>
      rw [guestLoop_cons] at h
      have hskip : (guestStep env s x).2 = .next s → x.2.detected = false →
          ∃ r, s'.result = some r := by
        intro hstep hnd
        rw [hstep] at h
        refine ih ?_ h
        obtain ⟨p, hp, hpd⟩ := hdet
        rcases List.mem_cons.mp hp with h1 | h1
        · subst h1; rw [hnd] at hpd; cases hpd
        · exact ⟨p, h1, hpd⟩
      rcases hd : x.2.detect with e0 | (_ | _)
      · exact hskip (guestStep_probe_error env s x e0 hd) (by simp [Guest.detected, hd])
      · exact hskip (guestStep_not_detected env s x hd) (by simp [Guest.detected, hd])
      · rw [guestStep_first env s x hd hr] at h
        cases hc : env.countParents x.2 with
        | error e1 => rw [hc] at h; cases h
        | ok n =>
          rw [hc] at h
          obtain ⟨t, r', h1, h2⟩ := guestLoop_ok_of_some env rest ⟨some x.2, x.1, n⟩ x.2 rfl
          simp only [h1] at h
          cases h
          exact ⟨r', h2⟩

/-- Candidates whose probe failed do not influence the loop. -/
theorem guestLoop_filter_probe (env : Env) (xs : List (String × Guest)) (s : Best) :
    (guestLoop env xs s).2 =
      (guestLoop env (xs.filter (fun p => !p.2.probeFailed)) s).2 := by
  induction xs generalizing s with
  | nil => rfl
  | cons x rest ih =>
    rcases hd : x.2.detect with e0 | d
    · have hf : x.2.probeFailed = true := by simp [Guest.probeFailed, hd]
      rw [guestLoop_cons, guestStep_probe_error env s x e0 hd]
      simpa [List.filter_cons, hf] using ih s
    · have hf : x.2.probeFailed = false := by simp [Guest.probeFailed, hd]
      simp only [List.filter_cons, hf, Bool.not_false, if_true]
      rw [guestLoop_cons, guestLoop_cons]
      cases (guestStep env s x).2 with
      | ret e => rfl
      | next s' => exact ih s'

/-- The loop does not look at the enumeration stored in the environment. -/
theorem guestLoop_withGuests (env : Env) (ys xs : List (String × Guest)) (s : Best) :
    guestLoop (env.withGuests ys) xs s = guestLoop env xs s := by
  induction xs generalizing s with
  | nil => rfl
  | cons x rest ih =>
    have hstep : guestStep (env.withGuests ys) s x = guestStep env s x := rfl
    simp only [guestLoop, hstep, ih]

theorem seedGuest_value_ne_countParents (m : Machine) (s : Best) (e : Err) :
    (m.seedGuest [] s).value ≠ .error (.countParents e) := by
  unfold Machine.seedGuest
  cases s.result with
  | none => simp
  | some r => rcases hsd : r.seeder with _ | (_ | _) <;> simp [hsd]

/-! ## Guest resolution -/

/-- C1: on a machine with no cached guest, when every probe succeeds, every
score computation on a detected candidate succeeds and some candidate is
detected, the enumeration has a first highest-scoring detected candidate, and
whenever that candidate seeds successfully `Guest()` returns it (and caches it). -/
theorem Guest_returns_first_highest (m : Machine) (env : Env) (score : Guest → Int)
    (guests : List (String × Guest))
    (hcache : m.guest = none) (hsrc : env.typeComponents = .ok guests)
    (hprobe : ∀ p ∈ guests, ∃ d, p.2.detect = .ok d)
    (hscore : ∀ p ∈ guests, p.2.detect = .ok true → env.countParents p.2 = .ok (score p.2))
    (hdet : ∃ p ∈ guests, p.2.detect = .ok true) :
    (∃ pre x post, IsFirstHighest score guests pre x post) ∧
    ∀ pre x post, IsFirstHighest score guests pre x post → x.2.seeder = some (.ok ()) →
      (m.Guest env).value = .ok x.2 ∧ (m.Guest env).machine.guest = some x.2 := by
  refine ⟨exists_first_highest score guests hdet, ?_⟩
  intro pre x post hx hseed
  have hloop := guestLoop_first_highest env score guests pre post x hprobe hscore hx
  rw [Guest_value_uncached m env guests hcache hsrc,
    Guest_machine_uncached m env guests hcache hsrc, hloop]
  simp [Machine.seedGuest, hseed]

/-- C2 as stated fails in its closing clause: with `a` failing its probe and `b`
detected with score 1 but lacking the seeder interface, `Guest()` returns the
error of line 134 and not `b`; so "probe error and detected with score 1" alone
does not make `Guest()` return `b`. -/
theorem Guest_probe_error_example_needs_seeder :
    guestBroken.detect = .error "probe failed" ∧ guestNoSeeder.detect = .ok true ∧
    sampleEnv.countParents guestNoSeeder = .ok 1 ∧
    (sampleMachine.Guest
      (sampleEnv.withGuests [("a", guestBroken), ("b", guestNoSeeder)])).value =
      .error .noSeeder ∧
    ¬ ∀ (m : Machine) (env : Env) (a b : String × Guest) (e : Err), m.guest = none →
      a.2.detect = .error e → b.2.detect = .ok true → env.countParents b.2 = .ok 1 →
      (m.Guest (env.withGuests [a, b])).value = .ok b.2 := by
  have hval : (sampleMachine.Guest
      (sampleEnv.withGuests [("a", guestBroken), ("b", guestNoSeeder)])).value =
      .error .noSeeder := rfl
  refine ⟨rfl, rfl, rfl, hval, ?_⟩
  intro h
  have hb := h sampleMachine sampleEnv ("a", guestBroken) ("b", guestNoSeeder)
    "probe failed" rfl rfl rfl rfl
  rw [hval] at hb
  cases hb

/-- C2 amended: a candidate whose probe returns an error is treated as not
applicable: `Guest()` gives the same result and leaves the same machine as on
the enumeration without the probe-erroring candidates. For the enumeration
`[a, b]` with `a` failing its probe and `b` detected with score 1, detection
selects `b`, and `Guest()` returns `b` (and caches it) provided `b` implements
the seeder interface and its `Seed` returns no error. -/
theorem Guest_skips_probe_errors (m : Machine) (env : Env) (guests : List (String × Guest))
    (hcache : m.guest = none) :
    ((m.Guest (env.withGuests guests)).value =
        (m.Guest (env.withGuests (guests.filter (fun p => !p.2.probeFailed)))).value ∧
      (m.Guest (env.withGuests guests)).machine =
        (m.Guest (env.withGuests (guests.filter (fun p => !p.2.probeFailed)))).machine) ∧
    ∀ (a b : String × Guest) (e : Err), guests = [a, b] → a.2.detect = .error e →
      b.2.detect = .ok true → env.countParents b.2 = .ok 1 →
      (guestLoop (env.withGuests guests) guests Best.init).2 = .ok ⟨some b.2, b.1, 1⟩ ∧
      (b.2.seeder = some (.ok ()) →
        (m.Guest (env.withGuests guests)).value = .ok b.2 ∧
        (m.Guest (env.withGuests guests)).machine.guest = some b.2) := by
  refine ⟨⟨?_, ?_⟩, ?_⟩
  · rw [Guest_value_uncached m _ guests hcache rfl, Guest_value_uncached m _ _ hcache rfl,
      guestLoop_withGuests, guestLoop_withGuests, guestLoop_filter_probe]
  · rw [Guest_machine_uncached m _ guests hcache rfl,
      Guest_machine_uncached m _ _ hcache rfl, guestLoop_withGuests, guestLoop_withGuests,
      guestLoop_filter_probe]
  · intro a b e hg ha hb hs
    have hsel : (guestLoop (env.withGuests guests) guests Best.init).2 =
        .ok ⟨some b.2, b.1, 1⟩ := by
      subst hg
      have hs' : (env.withGuests [a, b]).countParents b.2 = .ok 1 := hs
      rw [guestLoop_cons, guestStep_probe_error _ _ a e ha]
      show (guestLoop _ [b] Best.init).2 = _
      rw [guestLoop_cons, guestStep_first _ _ b hb rfl, hs']
      rfl
    refine ⟨hsel, ?_⟩
    intro hseed
    rw [Guest_value_uncached m _ guests hcache rfl,
      Guest_machine_uncached m _ guests hcache rfl, hsel]
    simp [Machine.seedGuest, hseed]

/-- C3: when detection on a machine with no cached guest selects the winner `w`,
a winner without the seeder interface, or whose `Seed` fails, makes `Guest()`
return an error with the guest cache left empty; `Guest()` returns a guest only
if it is `w` and `w` implements seeding and `Seed` returned no error. -/
theorem Guest_seeding_mandatory (m : Machine) (env : Env) (guests : List (String × Guest))
    (s : Best) (w : Guest)
    (hcache : m.guest = none) (hsrc : env.typeComponents = .ok guests)
    (hloop : (guestLoop env guests Best.init).2 = .ok s) (hw : s.result = some w) :
    (w.seeder = none →
      (m.Guest env).value = .error .noSeeder ∧ (m.Guest env).machine.guest = none) ∧
    (∀ e, w.seeder = some (.error e) →
      (m.Guest env).value = .error (.seed e) ∧ (m.Guest env).machine.guest = none) ∧
    (∀ g, (m.Guest env).value = .ok g → g = w ∧ w.seeder = some (.ok ())) := by
  rw [Guest_value_uncached m env guests hcache hsrc,
    Guest_machine_uncached m env guests hcache hsrc, hloop]
  refine ⟨?_, ?_, ?_⟩
  · intro h
    simp [Machine.seedGuest, hw, h, hcache]
  · intro e h
    simp [Machine.seedGuest, hw, h, hcache]
  · intro g
    rcases hsd : w.seeder with _ | (_ | _) <;> simp [Machine.seedGuest, hw, hsd]
    intro h
    exact h.symm

/-- C4: once `Guest()` has returned `g`, the machine holds `g` in its cache, and
on every machine holding `g` in its cache (the machine just returned, and the
same machine after any further calls) `Guest()` returns `g` with no error,
makes no collaborator call at all and leaves the machine as it is, whatever the
environment now answers. -/
theorem Guest_cached (m : Machine) (env : Env) (g : Guest)
    (h : (m.Guest env).value = .ok g) :
    (m.Guest env).machine.guest = some g ∧
    (∀ env' : Env, ((m.Guest env).machine.Guest env').value = .ok g ∧
      ((m.Guest env).machine.Guest env').calls = [] ∧
      ((m.Guest env).machine.Guest env').machine = (m.Guest env).machine) ∧
    ∀ (m' : Machine) (env' : Env), m'.guest = some g →
      (m'.Guest env').value = .ok g ∧ (m'.Guest env').calls = [] ∧
      (m'.Guest env').machine = m' := by
  have hhit : ∀ (m' : Machine) (env' : Env), m'.guest = some g →
      (m'.Guest env').value = .ok g ∧ (m'.Guest env').calls = [] ∧
      (m'.Guest env').machine = m' := by
    intro m' env' hm'
    simp [Machine.Guest, hm']
  have hstore : (m.Guest env).machine.guest = some g := by
    cases hc : m.guest with
    | some g' =>
      simp only [Machine.Guest, hc] at h ⊢
      cases h
      rfl
    | none =>
      cases hs : env.typeComponents with
      | error e => simp [Machine.Guest, hc, hs] at h
      | ok guests =>
        rw [Guest_value_uncached m env guests hc hs] at h
        rw [Guest_machine_uncached m env guests hc hs]
        cases hl : (guestLoop env guests Best.init).2 with
        | error e => simp [hl] at h
        | ok s =>
          simp only [hl] at h ⊢
          unfold Machine.seedGuest at h ⊢
          cases hr : s.result with
          | none => simp [hr] at h
          | some r =>
            rcases hsd : r.seeder with _ | (_ | _) <;> simp [hr, hsd] at h ⊢
            exact h
  exact ⟨hstore, fun env' => hhit _ env' hstore, hhit⟩

/-- C10: on a machine with no cached guest, `Guest()` returns the error of
`countParents` exactly when `countParents` fails on the first candidate whose
probe reports it detected, whatever follows in the enumeration, and then
nothing is cached. A detected candidate that comes after another detected one
and whose score computation fails leaves the locals of the loop unchanged, and
`Guest()` behaves as on the enumeration without it. -/
theorem Guest_score_failure_by_position (m : Machine) (env : Env)
    (guests : List (String × Guest))
    (hcache : m.guest = none) (hsrc : env.typeComponents = .ok guests) :
    (∀ e, (m.Guest env).value = .error (.countParents e) ↔
      ∃ p, guests.find? (fun p => p.2.detected) = some p ∧
        env.countParents p.2 = .error e) ∧
    ((∃ e, (m.Guest env).value = .error (.countParents e)) →
      (m.Guest env).machine.guest = none) ∧
    ∀ pre x post e, guests = pre ++ x :: post → (∃ p ∈ pre, p.2.detected = true) →
      x.2.detected = true → env.countParents x.2 = .error e →
      (∀ (s : Best) (r : Guest), s.result = some r → (guestStep env s x).2 = .next s) ∧
      (m.Guest env).value = (m.Guest (env.withGuests (pre ++ post))).value ∧
      (m.Guest env).machine = (m.Guest (env.withGuests (pre ++ post))).machine := by
  refine ⟨?_, ?_, ?_⟩
  · intro e
    rw [Guest_value_uncached m env guests hcache hsrc,
      ← guestLoop_error_iff env guests Best.init e rfl]
    cases hl : (guestLoop env guests Best.init).2 with
    | error e1 => simp
    | ok s => simpa using seedGuest_value_ne_countParents m s e
  · rintro ⟨e, he⟩
    rw [Guest_value_uncached m env guests hcache hsrc] at he
    rw [Guest_machine_uncached m env guests hcache hsrc]
    cases hl : (guestLoop env guests Best.init).2 with
    | error e1 => simpa using hcache
    | ok s =>
      rw [hl] at he
      exact absurd he (seedGuest_value_ne_countParents m s e)
  · intro pre x post e hg hpre hx hxs
    have hstep : ∀ (s : Best) (r : Guest), s.result = some r →
        (guestStep env s x).2 = .next s := by
      intro s r hr
      rw [guestStep_later env s x r ((Guest.detected_iff x.2).mp hx) hr, hxs]
    have hloop : (guestLoop env guests Best.init).2 =
        (guestLoop (env.withGuests (pre ++ post)) (pre ++ post) Best.init).2 := by
      rw [guestLoop_withGuests, hg, guestLoop_append, guestLoop_append]
      cases hl : (guestLoop env pre Best.init).2 with
      | error e1 => rfl
      | ok s1 =>
        obtain ⟨r, hr⟩ := guestLoop_some_of_detected env pre Best.init s1 hpre hl
        show (guestLoop env (x :: post) s1).2 = (guestLoop env post s1).2
        rw [guestLoop_cons, hstep s1 r hr]
    refine ⟨hstep, ?_, ?_⟩
    · rw [Guest_value_uncached m env guests hcache hsrc,
        Guest_value_uncached m _ (pre ++ post) hcache rfl, hloop]
    · rw [Guest_machine_uncached m env guests hcache hsrc,
        Guest_machine_uncached m _ (pre ++ post) hcache rfl, hloop]

/-- Witness for C1: `linux` (score 1), `debian` (score 3), `ubuntu` (score 3) are
all detected; `debian` is returned and cached. -/
theorem Guest_returns_first_highest_witness :
    (sampleMachine.Guest sampleEnv).value = .ok guestDebian ∧
    (sampleMachine.Guest sampleEnv).machine.guest = some guestDebian :=
  (Guest_returns_first_highest sampleMachine sampleEnv sampleScore
    [("linux", guestLinux), ("debian", guestDebian), ("ubuntu", guestUbuntu)] rfl rfl
    (by
      intro p hp
      simp only [List.mem_cons, List.mem_singleton, List.not_mem_nil, or_false] at hp
      rcases hp with rfl | rfl | rfl <;> exact ⟨_, rfl⟩)
    (by
      intro p hp _
      simp only [List.mem_cons, List.mem_singleton, List.not_mem_nil, or_false] at hp
      rcases hp with rfl | rfl | rfl <;> rfl)
    ⟨("linux", guestLinux), by simp, rfl⟩).2
    [("linux", guestLinux)] ("debian", guestDebian) [("ubuntu", guestUbuntu)]
    ⟨rfl, rfl,
      by
        intro p hp _
        simp only [List.mem_singleton] at hp
        subst hp
        decide,
      by
        intro p hp _
        simp only [List.mem_singleton] at hp
        subst hp
        decide⟩
    rfl

/-- Witness for C2 amended: with `broken` failing its probe and `linux` detected with
score 1, `Guest()` returns `linux`. -/
theorem Guest_skips_probe_errors_witness :
    (sampleMachine.Guest
      (sampleEnv.withGuests [("broken", guestBroken), ("linux", guestLinux)])).value =
      .ok guestLinux :=
  (((Guest_skips_probe_errors sampleMachine sampleEnv
    [("broken", guestBroken), ("linux", guestLinux)] rfl).2
    ("broken", guestBroken) ("linux", guestLinux) "probe failed" rfl rfl rfl rfl).2 rfl).1

/-- Witness for C3: the only candidate is detected but has no seeder interface. -/
theorem Guest_seeding_mandatory_witness :
    (sampleMachine.Guest (sampleEnv.withGuests [("bsd", guestNoSeeder)])).value =
      .error .noSeeder ∧
    (sampleMachine.Guest (sampleEnv.withGuests [("bsd", guestNoSeeder)])).machine.guest =
      none :=
  (Guest_seeding_mandatory sampleMachine (sampleEnv.withGuests [("bsd", guestNoSeeder)])
    [("bsd", guestNoSeeder)] ⟨some guestNoSeeder, "bsd", 1⟩ guestNoSeeder rfl rfl rfl rfl).1 rfl

/-- Witness for C4: after the first resolution, a call against an environment
that now offers only a broken candidate still returns `debian`, with no call. -/
theorem Guest_cached_witness :
    ((sampleMachine.Guest sampleEnv).machine.Guest
      (sampleEnv.withGuests [("broken", guestBroken)])).value = .ok guestDebian ∧
    ((sampleMachine.Guest sampleEnv).machine.Guest
      (sampleEnv.withGuests [("broken", guestBroken)])).calls = [] :=
  let h := (Guest_cached sampleMachine sampleEnv guestDebian rfl).2.1
    (sampleEnv.withGuests [("broken", guestBroken)])
  ⟨h.1, h.2.1⟩

/-- Witness for C10: `darwin` does not apply, `orphan` is the first detected
candidate and cannot be scored, so resolution fails although `debian` follows;
after `linux`, the same `orphan` is merely passed over. -/
theorem Guest_score_failure_by_position_witness :
    (sampleMachine.Guest (sampleEnv.withGuests
      [("darwin", guestDarwin), ("orphan", guestOrphan), ("debian", guestDebian)])).value =
      .error (.countParents "no parents") ∧
    (sampleMachine.Guest (sampleEnv.withGuests
      [("linux", guestLinux), ("orphan", guestOrphan), ("debian", guestDebian)])).value =
      (sampleMachine.Guest (sampleEnv.withGuests
        [("linux", guestLinux), ("debian", guestDebian)])).value :=
  ⟨((Guest_score_failure_by_position sampleMachine (sampleEnv.withGuests
      [("darwin", guestDarwin), ("orphan", guestOrphan), ("debian", guestDebian)])
      _ rfl rfl).1 "no parents").mpr ⟨("orphan", guestOrphan), rfl, rfl⟩,
   ((Guest_score_failure_by_position sampleMachine (sampleEnv.withGuests
      [("linux", guestLinux), ("orphan", guestOrphan), ("debian", guestDebian)])
      _ rfl rfl).2.2 [("linux", guestLinux)] ("orphan", guestOrphan)
      [("debian", guestDebian)] "no parents" rfl ⟨("linux", guestLinux), by simp, rfl⟩
      rfl rfl).2.1⟩

/-! ## Box resolution -/

/-- C5: on a machine with no cached box and configured box name `N`: when the
lookup finds a box, `Box()` returns that box and `addBox` is never called; when
the lookup succeeds and finds nothing, `addBox` is called exactly once, with
name `N`, and `Box()` returns what that call produced. -/
theorem Box_acquisition_count (m : Machine) (env : Env) (hcache : m.box = none) :
    (∀ b, env.Find m.target.ConfigVm.Box "" = .ok (some b) →
      (m.Box env).value = .ok b ∧ (m.Box env).calls.filter Call.isAddBox = []) ∧
    (env.Find m.target.ConfigVm.Box "" = .ok none →
      (m.Box env).calls.filter Call.isAddBox = [.addBox m.target.ConfigVm.Box "virtualbox"] ∧
      (m.Box env).value = env.addBox m.target.ConfigVm.Box "virtualbox") := by
  constructor
  · intro b hb
    simp [Machine.Box, hcache, hb, Machine.storeBox, Call.isAddBox]
  · intro hb
    cases ha : env.addBox m.target.ConfigVm.Box "virtualbox" <;>
      simp [Machine.Box, hcache, hb, ha, Machine.storeBox, Call.isAddBox]

/-- Witness for C5: the sample store knows the configured box. -/
theorem Box_acquisition_count_witness :
    (sampleMachine.Box sampleEnv).value = .ok sampleBox ∧
    (sampleMachine.Box sampleEnv).calls.filter Call.isAddBox = [] :=
  (Box_acquisition_count sampleMachine sampleEnv rfl).1 sampleBox rfl

/-- C6 fails on the code: with the store unavailable, `Box()` on the sample
machine returns the box it found with a nil error and caches it; the error
`Target.Save` answered is dropped, and the record handed to the store is the
stale one, serialized before the box was resolved. The result of `Box()` never
depends on what `Save` answers. -/
theorem Box_drops_save_error :
    (sampleMachine.Box storeDownEnv).value = .ok sampleBox ∧
    (sampleMachine.Box storeDownEnv).machine.box = some sampleBox ∧
    (sampleMachine.Box storeDownEnv).calls =
      [.find "hashicorp/bionic64" "", .save sampleMachine.target] ∧
    storeDownEnv.Save sampleMachine.target = some "store unavailable" ∧
    sampleMachine.target.Record = none ∧
    ∀ (m : Machine) (env : Env) (save : TargetRecord → Option Err),
      (m.Box { env with Save := save }).value = (m.Box env).value :=
  ⟨rfl, rfl, rfl, rfl, rfl, fun _ _ _ => rfl⟩

/-! ## Saving the machine -/

/-- C7 fails on the code: when the machine record cannot be serialized,
`SetID` returns a nil error although the store was never asked to save; the
id is set on the in-memory record only. -/
theorem SetID_reports_success_unsaved :
    (sampleMachine.SetID "machine-1" marshalFailsEnv).err = none ∧
    (sampleMachine.SetID "machine-1" marshalFailsEnv).calls =
      [.marshalAny { sampleRecord with Id := "machine-1" }] ∧
    (sampleMachine.SetID "machine-1" marshalFailsEnv).machine.machine.Id = "machine-1" ∧
    (sampleMachine.SetID "machine-1" marshalFailsEnv).machine.target.Record = none ∧
    ∀ (m : Machine) (env : Env) (v : String) (e : Err),
      env.MarshalAny { m.machine with Id := v } = .error e →
      (m.SetID v env).err = none ∧
      (m.SetID v env).calls = [.marshalAny { m.machine with Id := v }] := by
  refine ⟨rfl, rfl, rfl, rfl, ?_⟩
  intro m env v e h
  simp [Machine.SetID, Machine.SaveMachine, h]

/-! ## Synced folders -/

theorem syncedFoldersLoop_value (env : Env) (specs : List SyncedFolderSpec)
    (folders : List SyncedFolder) (calls : List Call) :
    (syncedFoldersLoop env specs folders calls).value =
      match lookupEach env.component (specs.map (fun _ => "virtualbox")) with
      | .error e => .error e
      | .ok hs => .ok (folders ++ hs) := by
  induction specs generalizing folders calls with
  | nil => simp [syncedFoldersLoop, lookupEach]
  | cons f rest ih =>
    cases hc : env.component "virtualbox" with
    | error e => simp [syncedFoldersLoop, lookupEach, hc]
    | ok plg =>
      simp only [syncedFoldersLoop, lookupEach, List.map_cons, hc]
      rw [ih]
      cases lookupEach env.component (List.map (fun _ => "virtualbox") rest) <;> simp

theorem lookupEach_const_ok (registry : String → Except Err SyncedFolder) (t : String)
    (n : Nat) (hs : List SyncedFolder)
    (h : lookupEach registry (List.replicate n t) = .ok hs) :
    hs.length = n ∧ ∀ h' ∈ hs, registry t = .ok h' := by
  induction n generalizing hs with
  | zero =>
    simp only [List.replicate, lookupEach, Except.ok.injEq] at h
    subst h
    simp
  | succ k ih =>
    simp only [List.replicate, lookupEach] at h
    cases hr : registry t with
    | error e => simp [hr] at h
    | ok x =>
      cases hl : lookupEach registry (List.replicate k t) with
      | error e => simp [hr, hl] at h
      | ok xs =>
        simp only [hr, hl, Except.ok.injEq] at h
        subst h
        obtain ⟨h1, h2⟩ := ih xs hl
        refine ⟨by simp [h1], ?_⟩
        intro h' hh
        rcases List.mem_cons.mp hh with h3 | h3
        · rw [h3]
        · rw [← hr]; exact h2 h' h3

/-- C9 as stated fails: the sample machine declares one folder of type `nfs`;
the specification's lookup yields the `nfs` transport, `SyncedFolders()` yields
the `virtualbox` one. -/
theorem SyncedFolders_ignores_declared_type :
    SyncedFolders_spec sampleMachine sampleEnv = .ok [⟨1⟩] ∧
    (sampleMachine.SyncedFolders sampleEnv).value = .ok [⟨2⟩] ∧
    (sampleMachine.SyncedFolders sampleEnv).value ≠
      SyncedFolders_spec sampleMachine sampleEnv := by
  have h1 : SyncedFolders_spec sampleMachine sampleEnv = .ok [⟨1⟩] := by
    simp [SyncedFolders_spec, sampleMachine, sampleEnv, lookupEach]
  have h2 : (sampleMachine.SyncedFolders sampleEnv).value = .ok [⟨2⟩] := by
    simp [Machine.SyncedFolders, sampleMachine, sampleEnv, syncedFoldersLoop]
  refine ⟨h1, h2, ?_⟩
  rw [h1, h2]
  simp

/-- C9 amended: `SyncedFolders()` looks up, for each declared spec in order, the
transport registered under the fixed type name `virtualbox`, whatever type the
spec declares, all or nothing: on success there is exactly one handle per spec,
each the lookup result for `virtualbox`; when there is at least one spec and
`virtualbox` has no registered transport, the lookup error is returned and no
handles. -/
theorem SyncedFolders_virtualbox_lookup (m : Machine) (env : Env) :
    (m.SyncedFolders env).value =
      lookupEach env.component (m.target.ConfigVm.SyncedFolders.map (fun _ => "virtualbox")) ∧
    (∀ hs, (m.SyncedFolders env).value = .ok hs →
      hs.length = m.target.ConfigVm.SyncedFolders.length ∧
      ∀ h ∈ hs, env.component "virtualbox" = .ok h) ∧
    (∀ e, m.target.ConfigVm.SyncedFolders ≠ [] → env.component "virtualbox" = .error e →
      (m.SyncedFolders env).value = .error e) := by
  have hval : (m.SyncedFolders env).value =
      lookupEach env.component
        (m.target.ConfigVm.SyncedFolders.map (fun _ => "virtualbox")) := by
    unfold Machine.SyncedFolders
    rw [syncedFoldersLoop_value]
    cases lookupEach env.component
      (m.target.ConfigVm.SyncedFolders.map (fun _ => "virtualbox")) <;> simp
  refine ⟨hval, ?_, ?_⟩
  · intro hs h
    rw [hval, List.map_const'] at h
    exact lookupEach_const_ok env.component "virtualbox" _ hs h
  · intro e hne he
    rw [hval]
    cases hsp : m.target.ConfigVm.SyncedFolders with
    | nil => exact absurd hsp hne
    | cons f rest => simp [lookupEach, he]

/-- Witness for C9 amended: the sample machine gets the `virtualbox` transport
for its `nfs` folder. -/
theorem SyncedFolders_virtualbox_lookup_witness :
    [(⟨2⟩ : SyncedFolder)].length = sampleMachine.target.ConfigVm.SyncedFolders.length ∧
    ∀ h ∈ [(⟨2⟩ : SyncedFolder)], sampleEnv.component "virtualbox" = .ok h :=
  (SyncedFolders_virtualbox_lookup sampleMachine sampleEnv).2.1 [⟨2⟩]
    (by simp [Machine.SyncedFolders, sampleMachine, sampleEnv, syncedFoldersLoop])

end Core
